import Mathlib

/-!
Verification of the queuectl job-queue core (`queuectl/storage.py`,
`queuectl/engine.py`, `queuectl/backoff.py`, `queuectl/cli.py`).

Modelling conventions:
* Timestamps are ISO-8601 strings at seconds precision in the source;
  `utils.utc_now` notes they are "safe for lexicographic comparison", so the
  order on timestamp strings coincides with chronological order and we model a
  timestamp as an `Int` (seconds).  `next_run_at` is `Option Int` (SQL `NULL`
  is `none`).
* The SQLite `jobs` table is modelled as a `List Job` in rowid (insertion)
  order.  The `id` column is a `PRIMARY KEY`; where a proof needs it this is
  the hypothesis that the mapped list of ids is `Nodup`.
* Each call the Python code makes to the wall clock (`utils.utc_now`,
  `utils.utc_now_iso`) becomes one explicit `Int` parameter of the modelled
  operation.  `fail_job` reads the clock twice (once for `updated_at`, once
  when computing the backoff target), so its model takes two clock values.
* Python functions that raise `ValueError` are modelled with `Except String`,
  returned together with the (unchanged, for error branches) store.
-/

namespace QueueCtl

/-- Job states, from `queuectl/models.py` (`JobState`). -/
inductive JobState where
  | pending
  | processing
  | completed
  | failed
  | dead
  deriving DecidableEq, Repr

/-- A job row, from `queuectl/models.py` (`Job`) / the `jobs` table schema in
`queuectl/storage.py`. -/
structure Job where
  id : String
  command : String
  state : JobState
  attempts : Nat
  max_retries : Int
  created_at : Int
  updated_at : Int
  next_run_at : Option Int
  last_error : Option String
  output_log_path : Option String
  deriving DecidableEq, Repr

/-- The `jobs` table, rows in rowid (insertion) order. -/
abbrev Store := List Job

/-- The ids column of a store. -/
def ids (s : Store) : List String := s.map Job.id

/-- `INSERT INTO jobs ...` (`JobStorage.enqueue`): appends a row. -/
def enqueue (job : Job) (s : Store) : Store := s ++ [job]

/-- `SELECT * FROM jobs WHERE id = ?` + `fetchone` (`JobStorage.get_job`):
first row in scan order with the given id. -/
def get_job (job_id : String) (s : Store) : Option Job :=
  s.find? (fun j => j.id == job_id)

/-- `UPDATE jobs SET <all columns> WHERE id = ?` (`JobStorage.update_job`):
every row matching the id is overwritten with the given job's fields. -/
def update_job (job : Job) (s : Store) : Store :=
  s.map (fun k => if k.id = job.id then job else k)

/-- The `WHERE` clause of `JobStorage.acquire_due_job`:
`state IN (pending, failed) AND (next_run_at IS NULL OR next_run_at <= now)`. -/
def eligible (now : Int) (j : Job) : Bool :=
  (decide (j.state = JobState.pending) || decide (j.state = JobState.failed)) &&
    (match j.next_run_at with
     | none => true
     | some t => decide (t ≤ now))

/-- `ORDER BY created_at LIMIT 1` over a candidate list: the row with minimal
`created_at`, the earlier row (scan order) winning ties. -/
def selectOldest : List Job → Option Job
  | [] => none
  | j :: rest =>
    match selectOldest rest with
    | none => some j
    | some b => if b.created_at < j.created_at then some b else some j

/-- The `SELECT` of `JobStorage.acquire_due_job`: oldest eligible row. -/
def selectDue (now : Int) (s : Store) : Option Job :=
  selectOldest (s.filter (eligible now))

/-- The in-memory mutation `job.state = PROCESSING; job.updated_at = now_iso`
performed by `JobStorage.acquire_due_job` on the fetched row. -/
def markProcessing (now : Int) (j : Job) : Job :=
  { j with state := JobState.processing, updated_at := now }

/-- `JobStorage.acquire_due_job(now)`: one `BEGIN IMMEDIATE` transaction that
selects the oldest eligible row, flips it to PROCESSING with
`updated_at = now` (the `UPDATE` sets only these two columns, `WHERE id = ?`),
and returns the mutated row; returns `none` and leaves the table untouched
when no row is eligible. -/
def acquire_due_job (now : Int) (s : Store) : Option Job × Store :=
  match selectDue now s with
  | none => (none, s)
  | some j =>
      (some (markProcessing now j),
       s.map (fun k => if k.id = j.id then markProcessing now k else k))

/-- `SELECT * FROM jobs ORDER BY created_at` (`JobStorage.list_jobs`). -/
def list_jobs (s : Store) : Store :=
  s.mergeSort (fun a b => a.created_at ≤ b.created_at)

/-- `SELECT state, COUNT(*) FROM jobs GROUP BY state`
(`JobStorage.counts_by_state`), read off for one state. -/
def counts_by_state (s : Store) (st : JobState) : Nat :=
  (s.filter (fun j => j.state == st)).length

/-- Defaults `max_retries` and `backoff_base` from `queuectl/config.py`
(`Config.DEFAULTS` merged with operator overrides). -/
structure Config where
  max_retries : Int
  backoff_base : Int
  deriving DecidableEq, Repr

/-- `compute_backoff(base, attempts)` from `queuectl/backoff.py`:
0 when `attempts <= 0`, else `base ** attempts`. -/
def compute_backoff (base : Int) (attempts : Nat) : Int :=
  if attempts ≤ 0 then 0 else base ^ attempts

/-- The decoded JSON payload accepted by `QueueEngine.enqueue_job_from_json`.
`command = some ""` models a present-but-falsy `"command"` entry, and
`id = some ""` a falsy `"id"` entry (Python tests truthiness for both). -/
structure JobPayload where
  id : Option String
  command : Option String
  max_retries : Option Int
  run_at : Option Int
  delay : Option Int
  deriving DecidableEq, Repr

/-- `data.get("id") or utils.generate_job_id()`: a missing or falsy (empty)
id falls back to the generated one. -/
def chosenId (p : JobPayload) (genId : String) : String :=
  match p.id with
  | some i => if i = "" then genId else i
  | none => genId

/-- `QueueEngine.enqueue_job_from_json` after JSON decoding: validates the
`command` field, resolves `max_retries`, computes `next_run_at` from `run_at`
(taking precedence) or `delay` or "now", builds the PENDING job and inserts
it.  `genId` is the id `utils.generate_job_id()` would return; `now` the
single `utils.utc_now()` read. -/
def enqueue_job_from_json (cfg : Config) (genId : String) (now : Int)
    (p : JobPayload) (s : Store) : Except String Job × Store :=
  match p.command with
  | none => (Except.error "Job JSON must contain a non-empty 'command' field", s)
  | some c =>
    if c = "" then
      (Except.error "Job JSON must contain a non-empty 'command' field", s)
    else
      let next_run : Int :=
        match p.run_at with
        | some t => t
        | none =>
          match p.delay with
          | some d => now + d
          | none => now
      let job : Job :=
        { id := chosenId p genId
          command := c
          state := JobState.pending
          attempts := 0
          max_retries := p.max_retries.getD cfg.max_retries
          created_at := now
          updated_at := now
          next_run_at := some next_run
          last_error := none
          output_log_path := none }
      (Except.ok job, enqueue job s)

/-- `QueueEngine.acquire_job_for_worker`: reads the clock and delegates to
`JobStorage.acquire_due_job`. -/
def acquire_job_for_worker (now : Int) (s : Store) : Option Job × Store :=
  acquire_due_job now s

/-- `QueueEngine.complete_job`: PROCESSING → COMPLETED; clears `next_run_at`
and `last_error`, records the output log path, bumps `updated_at`, writes the
row back. -/
def complete_job (now : Int) (output_log_path : Option String) (j : Job)
    (s : Store) : Job × Store :=
  let j2 : Job :=
    { j with state := JobState.completed
             updated_at := now
             next_run_at := none
             last_error := none
             output_log_path := output_log_path }
  (j2, update_job j2 s)

/-- `QueueEngine.fail_job`: increments `attempts`, records the error and
`updated_at` (clock read `t_upd`); when the new attempt count reaches
`max_retries` the job goes DEAD with `next_run_at = NULL`, otherwise FAILED
with `next_run_at` = a second clock read `t_back` plus the computed backoff;
writes the row back. -/
def fail_job (cfg : Config) (t_upd t_back : Int) (error_message : String)
    (j : Job) (s : Store) : Job × Store :=
  let a : Nat := j.attempts + 1
  let j1 : Job := { j with attempts := a, updated_at := t_upd,
                           last_error := some error_message }
  let j2 : Job :=
    if (a : Int) ≥ j.max_retries then
      { j1 with state := JobState.dead, next_run_at := none }
    else
      { j1 with state := JobState.failed,
                next_run_at := some (t_back + compute_backoff cfg.backoff_base a) }
  (j2, update_job j2 s)

/-- `QueueEngine.dlq_retry`: "not found" error for an unknown id, "not in
DLQ" error for a non-DEAD job (both leave the table untouched); a DEAD job
goes back to PENDING with `attempts = 0`, `last_error` cleared and
`next_run_at = updated_at = now`. -/
def dlq_retry (now : Int) (job_id : String) (s : Store) :
    Except String Job × Store :=
  match get_job job_id s with
  | none => (Except.error ("No job found with id '" ++ job_id ++ "'"), s)
  | some j =>
    if j.state ≠ JobState.dead then
      (Except.error ("Job '" ++ job_id ++ "' is not in DLQ"), s)
    else
      let j2 : Job := { j with state := JobState.pending
                               attempts := 0
                               updated_at := now
                               next_run_at := some now
                               last_error := none }
      (Except.ok j2, update_job j2 s)

/-- Result record of `QueueEngine.metrics`. -/
structure Metrics where
  total_jobs : Nat
  by_state : JobState → Nat
  success_rate : Rat
  avg_attempts_completed : Rat
  avg_attempts_dead : Rat
  avg_duration_completed_seconds : Rat

/-- The local `avg_attempts` helper inside `QueueEngine.metrics`. -/
def avg_attempts (js : List Job) : Rat :=
  if js.length = 0 then 0
  else (js.map (fun j => (j.attempts : Rat))).sum / js.length

/-- `QueueEngine.metrics`: reads all jobs, buckets them by state, and derives
`total_jobs`, per-state counts, `success_rate` (0 for an empty table), mean
attempts of completed and dead jobs, and mean `updated_at - created_at` of
completed jobs (timestamp parsing cannot fail in the model). -/
def metrics (s : Store) : Metrics :=
  let jobs := list_jobs s
  let total := jobs.length
  let bucket := fun st => jobs.filter (fun j => j.state == st)
  let completed := bucket JobState.completed
  let dead := bucket JobState.dead
  let durations := completed.map (fun j => ((j.updated_at - j.created_at : Int) : Rat))
  { total_jobs := total
    by_state := fun st => (bucket st).length
    success_rate := if total = 0 then 0 else (completed.length : Rat) / total
    avg_attempts_completed := avg_attempts completed
    avg_attempts_dead := avg_attempts dead
    avg_duration_completed_seconds :=
      if durations.length = 0 then 0 else durations.sum / durations.length }

/-- The argument set of the `enqueue` subcommand in `queuectl/cli.py`.
`job_json = some p` models a provided (and decodable) JSON positional
argument; `run_at = some t` a provided non-empty `--run-at`. -/
structure EnqueueArgs where
  job_json : Option JobPayload
  job_command : Option String
  job_id : Option String
  max_retries : Option Int
  run_at : Option Int
  delay : Option Int
  deriving DecidableEq, Repr

/-- The `enqueue` branch of `main` in `queuectl/cli.py`: a JSON payload is
passed straight to the engine; otherwise `--cmd` is required, `--run-at`
together with `--delay` is rejected, and a payload is assembled with
`--run-at` taking precedence over `--delay`. -/
def cli_enqueue (cfg : Config) (genId : String) (now : Int)
    (args : EnqueueArgs) (s : Store) : Except String Job × Store :=
  match args.job_json with
  | some p => enqueue_job_from_json cfg genId now p s
  | none =>
    match args.job_command with
    | none =>
      (Except.error "You must provide either a JSON payload or --cmd for the job command", s)
    | some cmd =>
      if cmd = "" then
        (Except.error "You must provide either a JSON payload or --cmd for the job command", s)
      else if args.run_at.isSome && args.delay.isSome then
        (Except.error "You cannot specify both --run-at and --delay", s)
      else
        let payload : JobPayload :=
          { id := args.job_id
            command := some cmd
            max_retries := args.max_retries
            run_at := args.run_at
            delay := match args.run_at with
              | some _ => none
              | none => args.delay }
        enqueue_job_from_json cfg genId now payload s

/-- Number of rows currently satisfying the acquisition `WHERE` clause
(the backlog `M` of eligible jobs). -/
def eligCount (now : Int) (s : Store) : Nat :=
  (s.filter (eligible now)).length

/-- `N` workers each calling `acquire_due_job` once.  Each call runs inside
`BEGIN IMMEDIATE`, i.e. as one serializing read-modify-write transaction, so
any concurrent execution of the `N` calls is equivalent to some serial order
of the `N` atomic calls; this models that serial order. -/
def acquireMany (now : Int) : Nat → Store → List Job × Store
  | 0, s => ([], s)
  | n + 1, s =>
    match acquire_due_job now s with
    | (none, s1) => acquireMany now n s1
    | (some j, s1) =>
      let r := acquireMany now n s1
      (j :: r.1, r.2)

/-- The direction of the scheduling invariant the code maintains:
every PENDING or FAILED row has a non-null `next_run_at`. -/
def schedInvariant (s : Store) : Prop :=
  ∀ j ∈ s, (j.state = JobState.pending ∨ j.state = JobState.failed) →
    j.next_run_at ≠ none

/-- The full claimed invariant: `next_run_at` is non-null iff the state is
PENDING or FAILED. -/
def schedIffInvariant (s : Store) : Prop :=
  ∀ j ∈ s,
    (j.next_run_at ≠ none ↔ (j.state = JobState.pending ∨ j.state = JobState.failed))

instance (s : Store) : Decidable (schedInvariant s) := by
  unfold schedInvariant
  infer_instance

instance (s : Store) : Decidable (schedIffInvariant s) := by
  unfold schedIffInvariant
  infer_instance

/-- What claim C1 asserts of one `acquire_due_job` call at time `now`:
any returned job comes from a PENDING/FAILED row due by `now`, oldest by
`created_at`, atomically flipped to PROCESSING with `updated_at = now`;
no eligible row means `none`, with the table untouched. -/
def acquireClaim (now : Int) (s : Store) : Prop :=
  (∀ j', (acquire_due_job now s).1 = some j' →
    ∃ j ∈ s, ∃ t : Int,
      (j.state = JobState.pending ∨ j.state = JobState.failed) ∧
      j.state ≠ JobState.processing ∧
      j.next_run_at = some t ∧ t ≤ now ∧
      (∀ k ∈ s, eligible now k = true → j.created_at ≤ k.created_at) ∧
      j' = markProcessing now j ∧ j'.state = JobState.processing ∧
      j'.updated_at = now ∧
      (acquire_due_job now s).2 =
        s.map (fun k => if k.id = j.id then markProcessing now k else k)) ∧
  ((acquire_due_job now s).1 = none ↔ ∀ k ∈ s, eligible now k = false) ∧
  ((acquire_due_job now s).1 = none → (acquire_due_job now s).2 = s)

/-- What claim C2 asserts of `N` serialized acquisition calls against a
backlog of `eligCount now s` eligible rows: exactly that many jobs are
returned in total, with pairwise-distinct ids, each one an eligible row of
the starting table claimed exactly once. -/
def acquireManyClaim (now : Int) (N : Nat) (s : Store) : Prop :=
  (acquireMany now N s).1.length = eligCount now s ∧
  ((acquireMany now N s).1.map Job.id).Nodup ∧
  ∀ j' ∈ (acquireMany now N s).1,
    ∃ k ∈ s, eligible now k = true ∧ k.id = j'.id ∧ j' = markProcessing now k

/-- What the amended claim C3 asserts of one `fail_job` call whose two clock
reads return `t_upd` (for `updated_at`) and `t_back` (for the backoff
target): attempts becomes `K = attempts + 1`, the error and `updated_at` are
recorded; `K < max_retries` gives FAILED with
`next_run_at = t_back + backoff_base ^ K` — equal to
`updated_at + backoff_base ^ K` exactly when the two reads coincide — and
`K >= max_retries` gives DEAD with null `next_run_at`. -/
def failBackoffClaim (cfg : Config) (t_upd t_back : Int) (msg : String)
    (j : Job) (s : Store) : Prop :=
  (fail_job cfg t_upd t_back msg j s).1.attempts = j.attempts + 1 ∧
  (fail_job cfg t_upd t_back msg j s).1.updated_at = t_upd ∧
  (fail_job cfg t_upd t_back msg j s).1.last_error = some msg ∧
  (fail_job cfg t_upd t_back msg j s).2 =
    update_job (fail_job cfg t_upd t_back msg j s).1 s ∧
  ((j.attempts : Int) + 1 < j.max_retries →
    (fail_job cfg t_upd t_back msg j s).1.state = JobState.failed ∧
    (fail_job cfg t_upd t_back msg j s).1.next_run_at =
      some (t_back + cfg.backoff_base ^ (j.attempts + 1)) ∧
    (t_upd = t_back →
      (fail_job cfg t_upd t_back msg j s).1.next_run_at =
        some ((fail_job cfg t_upd t_back msg j s).1.updated_at +
          cfg.backoff_base ^ (j.attempts + 1)))) ∧
  ((j.attempts : Int) + 1 ≥ j.max_retries →
    (fail_job cfg t_upd t_back msg j s).1.state = JobState.dead ∧
    (fail_job cfg t_upd t_back msg j s).1.next_run_at = none)

/-- What the amended claim C4 asserts: every engine operation preserves the
direction "PENDING or FAILED implies non-null `next_run_at`" of the
scheduling invariant; completion and exhaustion write null `next_run_at`;
but acquisition leaves the claimed row's old non-null `next_run_at` in place
on the PROCESSING row (the `UPDATE` sets only `state` and `updated_at`). -/
def schedClaim (cfg : Config) (genId : String) (now t2 : Int) (p : JobPayload)
    (path : Option String) (msg : String) (job_id : String) (j : Job)
    (s : Store) : Prop :=
  schedInvariant (enqueue_job_from_json cfg genId now p s).2 ∧
  schedInvariant (acquire_due_job now s).2 ∧
  schedInvariant (complete_job now path j s).2 ∧
  schedInvariant (fail_job cfg now t2 msg j s).2 ∧
  schedInvariant (dlq_retry now job_id s).2 ∧
  (complete_job now path j s).1.next_run_at = none ∧
  ((j.attempts : Int) + 1 ≥ j.max_retries →
    (fail_job cfg now t2 msg j s).1.next_run_at = none ∧
    (fail_job cfg now t2 msg j s).1.state = JobState.dead) ∧
  (∀ jj, selectDue now s = some jj →
    (acquire_due_job now s).1 = some (markProcessing now jj) ∧
    (markProcessing now jj).next_run_at = jj.next_run_at)

/-- What the amended claim C5 asserts: the flag-based CLI path rejects
`--run-at` together with `--delay` before reaching the engine, leaving the
table untouched; but a JSON payload carrying both `run_at` and `delay` is
not rejected — the engine silently prefers `run_at` and creates the row. -/
def bothScheduleClaim (cfg : Config) (genId : String) (now : Int) (t : Int)
    (p : JobPayload) (args : EnqueueArgs) (s : Store) : Prop :=
  ((cli_enqueue cfg genId now args s).1 =
      Except.error "You cannot specify both --run-at and --delay" ∧
    (cli_enqueue cfg genId now args s).2 = s) ∧
  (∃ job, (enqueue_job_from_json cfg genId now p s).1 = Except.ok job ∧
    (enqueue_job_from_json cfg genId now p s).2 = s ++ [job] ∧
    job.next_run_at = some t ∧ job.state = JobState.pending)

/-- What claim C6 asserts of `dlq_retry`: a missing id gives the "not found"
error and a non-DEAD job the "not in DLQ" error, both without mutating the
table; a DEAD job goes back to PENDING with `attempts = 0`, `last_error`
cleared, `next_run_at = updated_at = now`, all other fields kept. -/
def dlqRequeueClaim (now : Int) (job_id : String) (s : Store) : Prop :=
  (get_job job_id s = none →
    (dlq_retry now job_id s).1 =
      Except.error ("No job found with id '" ++ job_id ++ "'") ∧
    (dlq_retry now job_id s).2 = s) ∧
  (∀ j, get_job job_id s = some j → j.state ≠ JobState.dead →
    (dlq_retry now job_id s).1 =
      Except.error ("Job '" ++ job_id ++ "' is not in DLQ") ∧
    (dlq_retry now job_id s).2 = s) ∧
  (∀ j, get_job job_id s = some j → j.state = JobState.dead →
    ∃ j2, (dlq_retry now job_id s).1 = Except.ok j2 ∧
      j2.state = JobState.pending ∧ j2.attempts = 0 ∧ j2.last_error = none ∧
      j2.next_run_at = some now ∧ j2.updated_at = now ∧
      j2.id = j.id ∧ j2.command = j.command ∧ j2.max_retries = j.max_retries ∧
      j2.created_at = j.created_at ∧
      (dlq_retry now job_id s).2 = update_job j2 s)

/-- What claim C7 asserts of a valid submission: the created job is PENDING
with `attempts = 0` and `next_run_at` equal to `run_at` when supplied, to
`now + delay` when `delay` is supplied, and to `now` otherwise. -/
def submitClaim (cfg : Config) (genId : String) (now : Int) (p : JobPayload)
    (s : Store) : Prop :=
  ∃ job, (enqueue_job_from_json cfg genId now p s).1 = Except.ok job ∧
    (enqueue_job_from_json cfg genId now p s).2 = s ++ [job] ∧
    job.state = JobState.pending ∧ job.attempts = 0 ∧
    (p.run_at = none → p.delay = none → job.next_run_at = some now) ∧
    (∀ t, p.run_at = some t → job.next_run_at = some t) ∧
    (∀ d, p.run_at = none → p.delay = some d → job.next_run_at = some (now + d))

/-- What the amended claim C8 asserts: `attempts` starts at 0 at submission
and no row's `attempts` decreases under acquisition, completion or failure
(stated row-by-row over the table); `dlq_retry`, however, resets the
requeued job's `attempts` to 0, which can decrease it. -/
def attemptsClaim (cfg : Config) (genId : String) (now t2 : Int) (msg : String)
    (path : Option String) (job_id : String) (p : JobPayload) (j : Job)
    (s : Store) : Prop :=
  (∀ jb, (enqueue_job_from_json cfg genId now p s).1 = Except.ok jb →
    jb.attempts = 0) ∧
  List.Forall₂ (fun a b => a.attempts ≤ b.attempts) s (acquire_due_job now s).2 ∧
  List.Forall₂ (fun a b => a.attempts ≤ b.attempts) s (complete_job now path j s).2 ∧
  List.Forall₂ (fun a b => a.attempts ≤ b.attempts) s (fail_job cfg now t2 msg j s).2 ∧
  (∀ j2, (dlq_retry now job_id s).1 = Except.ok j2 → j2.attempts = 0)

/-- What claim C9 asserts of `metrics`: the per-state counts sum to
`total_jobs`, and `success_rate` is the completed count divided by the
total, taken as 0 for an empty table. -/
def metricsClaim (s : Store) : Prop :=
  (metrics s).by_state JobState.pending + (metrics s).by_state JobState.processing +
      (metrics s).by_state JobState.completed + (metrics s).by_state JobState.failed +
      (metrics s).by_state JobState.dead = (metrics s).total_jobs ∧
  ((metrics s).total_jobs = 0 → (metrics s).success_rate = 0) ∧
  ((metrics s).total_jobs ≠ 0 →
    (metrics s).success_rate =
      ((metrics s).by_state JobState.completed : Rat) / ((metrics s).total_jobs : Rat))

/-- What claim C10 asserts of `complete_job`: only `state`, `updated_at`,
`next_run_at`, `last_error` and `output_log_path` change; `id`, `command`,
`attempts`, `max_retries` and `created_at` are untouched, and rows with a
different id are left as they were. -/
def completeFrameClaim (now : Int) (path : Option String) (j : Job)
    (s : Store) : Prop :=
  (complete_job now path j s).1.id = j.id ∧
  (complete_job now path j s).1.command = j.command ∧
  (complete_job now path j s).1.attempts = j.attempts ∧
  (complete_job now path j s).1.max_retries = j.max_retries ∧
  (complete_job now path j s).1.created_at = j.created_at ∧
  (complete_job now path j s).1.state = JobState.completed ∧
  (complete_job now path j s).1.updated_at = now ∧
  (complete_job now path j s).1.next_run_at = none ∧
  (complete_job now path j s).1.last_error = none ∧
  (complete_job now path j s).1.output_log_path = path ∧
  (complete_job now path j s).2 = update_job (complete_job now path j s).1 s ∧
  (∀ k ∈ s, k.id ≠ j.id → k ∈ (complete_job now path j s).2)

/-- Sample configuration (the documented defaults). -/
def cfgW : Config := { max_retries := 3, backoff_base := 2 }

/-- Sample pending job. -/
def wJob1 : Job :=
  { id := "a", command := "echo hi", state := JobState.pending, attempts := 0,
    max_retries := 3, created_at := 1, updated_at := 1, next_run_at := some 3,
    last_error := none, output_log_path := none }

/-- Second sample pending job, younger than `wJob1`. -/
def wJob2 : Job :=
  { wJob1 with id := "b", created_at := 2, next_run_at := some 4 }

/-- Sample row already claimed by a worker. -/
def wJobProc : Job :=
  { wJob1 with
    id := "c"
    state := JobState.processing
    created_at := 0
    next_run_at := none }

/-- Sample dead-letter row with a non-zero attempt count. -/
def wDead : Job :=
  { wJob1 with
    id := "d"
    state := JobState.dead
    attempts := 2
    next_run_at := none
    last_error := some "boom" }

/-- Sample PROCESSING job about to be failed. -/
def wProcJob : Job :=
  { id := "p", command := "false", state := JobState.processing, attempts := 0,
    max_retries := 3, created_at := 0, updated_at := 0, next_run_at := none,
    last_error := none, output_log_path := none }

/-- Sample store with two eligible rows and one claimed row. -/
def wStore : Store := [wJob1, wJob2, wJobProc]

/-- Payload supplying both scheduling fields. -/
def wPayloadBoth : JobPayload :=
  { id := none, command := some "echo", max_retries := none,
    run_at := some 100, delay := some 5 }

/-- Payload with no scheduling field. -/
def wPayloadPlain : JobPayload :=
  { id := none, command := some "echo", max_retries := none,
    run_at := none, delay := none }

/-- Flag-based CLI arguments supplying both scheduling flags. -/
def wArgsBoth : EnqueueArgs :=
  { job_json := none, job_command := some "echo", job_id := none,
    max_retries := none, run_at := some 100, delay := some 5 }

end QueueCtl

namespace QueueCtl

theorem eligible_true_iff (now : Int) (j : Job) :
    eligible now j = true ↔
      (j.state = JobState.pending ∨ j.state = JobState.failed) ∧
        (j.next_run_at = none ∨ ∃ t, j.next_run_at = some t ∧ t ≤ now) := by
  unfold eligible
  cases h : j.next_run_at with
  | none => simp [h]
  | some t => simp [h]

theorem eligible_state {now : Int} {j : Job} (h : eligible now j = true) :
    j.state = JobState.pending ∨ j.state = JobState.failed :=
  ((eligible_true_iff now j).mp h).1

theorem eligible_not_processing {now : Int} {j : Job} (h : eligible now j = true) :
    j.state ≠ JobState.processing := by
  rcases eligible_state h with h1 | h1 <;> simp [h1]

theorem eligible_time {now : Int} {j : Job} (h : eligible now j = true)
    {t : Int} (ht : j.next_run_at = some t) : t ≤ now := by
  rcases ((eligible_true_iff now j).mp h).2 with h2 | ⟨u, hu, hle⟩
  · rw [ht] at h2; cases h2
  · rw [ht] at hu
    cases hu
    exact hle

theorem markProcessing_state (now : Int) (j : Job) :
    (markProcessing now j).state = JobState.processing := rfl

theorem eligible_markProcessing (now now' : Int) (j : Job) :
    eligible now (markProcessing now' j) = false := by
  unfold eligible markProcessing
  cases h : j.next_run_at <;> simp [h]

theorem selectOldest_cons (a : Job) (t : List Job) :
    selectOldest (a :: t) =
      match selectOldest t with
      | none => some a
      | some b => if b.created_at < a.created_at then some b else some a := rfl

theorem selectOldest_eq_none {l : List Job} : selectOldest l = none ↔ l = [] := by
  cases l with
  | nil => simp [selectOldest]
  | cons a t =>
    rw [selectOldest_cons]
    cases h : selectOldest t with
    | none => simp
    | some b =>
      by_cases hlt : b.created_at < a.created_at <;> simp [hlt]

theorem selectOldest_mem {l : List Job} {j : Job} (h : selectOldest l = some j) :
    j ∈ l := by
  induction l with
  | nil => cases h
  | cons a t ih =>
    rw [selectOldest_cons] at h
    cases hs : selectOldest t with
    | none =>
      simp only [hs] at h
      cases h
      exact List.mem_cons_self _ _
    | some b =>
      simp only [hs] at h
      by_cases hlt : b.created_at < a.created_at
      · rw [if_pos hlt] at h
        cases h
        exact List.mem_cons_of_mem a (ih hs)
      · rw [if_neg hlt] at h
        cases h
        exact List.mem_cons_self _ _

theorem selectOldest_min (l : List Job) : ∀ j : Job, selectOldest l = some j →
    ∀ k ∈ l, j.created_at ≤ k.created_at := by
  induction l with
  | nil => intro j h; cases h
  | cons a t ih =>
    intro j h
    rw [selectOldest_cons] at h
    cases hs : selectOldest t with
    | none =>
      simp only [hs] at h
      obtain rfl := Option.some.inj h
      have ht : t = [] := selectOldest_eq_none.mp hs
      subst ht
      intro k hk
      rcases List.mem_cons.mp hk with rfl | hk
      · exact le_refl _
      · cases hk
    | some b =>
      simp only [hs] at h
      intro k hk
      rcases List.mem_cons.mp hk with rfl | hk
      · by_cases hlt : b.created_at < k.created_at
        · rw [if_pos hlt] at h
          rw [← Option.some.inj h]
          exact le_of_lt hlt
        · rw [if_neg hlt] at h
          rw [← Option.some.inj h]
      · by_cases hlt : b.created_at < a.created_at
        · rw [if_pos hlt] at h
          rw [← Option.some.inj h]
          exact ih b hs k hk
        · rw [if_neg hlt] at h
          rw [← Option.some.inj h]
          exact le_trans (le_of_not_lt hlt) (ih b hs k hk)

theorem selectDue_eq_none {now : Int} {s : Store} :
    selectDue now s = none ↔ ∀ j ∈ s, eligible now j = false := by
  unfold selectDue
  rw [selectOldest_eq_none, List.filter_eq_nil_iff]
  constructor
  · intro h j hj
    exact Bool.not_eq_true _ ▸ (by simpa using h j hj)
  · intro h j hj
    simp [h j hj]

theorem selectDue_mem {now : Int} {s : Store} {j : Job}
    (h : selectDue now s = some j) : j ∈ s ∧ eligible now j = true := by
  have := selectOldest_mem h
  exact List.mem_filter.mp this

theorem selectDue_min {now : Int} {s : Store} {j : Job}
    (h : selectDue now s = some j) :
    ∀ k ∈ s, eligible now k = true → j.created_at ≤ k.created_at := by
  intro k hk he
  exact selectOldest_min _ _ h k (List.mem_filter.mpr ⟨hk, he⟩)

theorem acquire_eq_of_selectDue_none {now : Int} {s : Store}
    (h : selectDue now s = none) : acquire_due_job now s = (none, s) := by
  simp [acquire_due_job, h]

theorem acquire_eq_of_selectDue_some {now : Int} {s : Store} {j : Job}
    (h : selectDue now s = some j) :
    acquire_due_job now s =
      (some (markProcessing now j),
       s.map (fun k => if k.id = j.id then markProcessing now k else k)) := by
  simp [acquire_due_job, h]

end QueueCtl

namespace QueueCtl

theorem ids_eq (s : Store) : ids s = s.map Job.id := rfl

theorem acquireMap_id (now : Int) (i : String) (k : Job) :
    (if k.id = i then markProcessing now k else k).id = k.id := by
  split <;> rfl

theorem ids_acquire (now : Int) (s : Store) :
    ids (acquire_due_job now s).2 = ids s := by
  cases h : selectDue now s with
  | none => rw [acquire_eq_of_selectDue_none h]
  | some j =>
    rw [acquire_eq_of_selectDue_some h]
    rw [ids_eq, ids_eq, List.map_map]
    exact List.map_congr_left (fun k _ => acquireMap_id now j.id k)

theorem mem_of_eligible_mem_acquire (now : Int) (s : Store) :
    ∀ x ∈ (acquire_due_job now s).2, eligible now x = true → x ∈ s := by
  cases h : selectDue now s with
  | none =>
    rw [acquire_eq_of_selectDue_none h]
    exact fun x hx _ => hx
  | some j =>
    rw [acquire_eq_of_selectDue_some h]
    intro x hx he
    rcases List.mem_map.mp hx with ⟨k, hk, hfk⟩
    by_cases hid : k.id = j.id
    · rw [if_pos hid] at hfk
      rw [← hfk, eligible_markProcessing] at he
      cases he
    · rw [if_neg hid] at hfk
      rw [← hfk]
      exact hk

theorem processing_mem_acquire (now : Int) (s : Store) (hnd : (ids s).Nodup)
    (r : Job) (hr : r ∈ s) (hproc : r.state = JobState.processing) :
    r ∈ (acquire_due_job now s).2 := by
  cases h : selectDue now s with
  | none =>
    rw [acquire_eq_of_selectDue_none h]
    exact hr
  | some j =>
    rw [acquire_eq_of_selectDue_some h]
    obtain ⟨hjmem, hjel⟩ := selectDue_mem h
    have hne : r.id ≠ j.id := by
      intro hid
      have hrj : r = j := List.inj_on_of_nodup_map (ids_eq s ▸ hnd) hr hjmem hid
      rw [hrj] at hproc
      exact eligible_not_processing hjel hproc
    have hfix : (fun k => if k.id = j.id then markProcessing now k else k) r = r :=
      if_neg hne
    rw [← hfix]
    exact List.mem_map_of_mem _ hr

theorem countP_acquireMap (now : Int) (j : Job) :
    ∀ s : Store, (ids s).Nodup → j ∈ s → eligible now j = true →
      (s.map (fun k => if k.id = j.id then markProcessing now k else k)).countP
          (eligible now) + 1 =
        s.countP (eligible now) := by
  intro s
  induction s with
  | nil => intro _ hj; cases hj
  | cons a t ih =>
    intro hnd hj he
    rw [ids_eq, List.map_cons, List.nodup_cons] at hnd
    rw [List.map_cons, List.countP_cons, List.countP_cons]
    rcases List.mem_cons.mp hj with rfl | hjt
    · rw [if_pos rfl, eligible_markProcessing, he]
      have ht : t.map (fun k => if k.id = j.id then markProcessing now k else k) = t := by
        have hcongr : ∀ k ∈ t, (if k.id = j.id then markProcessing now k else k) = k := by
          intro k hk
          have : k.id ≠ j.id := by
            intro hkj
            exact hnd.1 (hkj ▸ List.mem_map_of_mem Job.id hk)
          exact if_neg this
        rw [List.map_congr_left hcongr, List.map_id']
      rw [ht]
      simp
    · have hane : a.id ≠ j.id := by
        intro haj
        exact hnd.1 (haj ▸ List.mem_map_of_mem Job.id hjt)
      rw [if_neg hane]
      have := ih (ids_eq t ▸ hnd.2) hjt he
      omega

theorem eligCount_acquire_some (now : Int) (s : Store) (j : Job)
    (hnd : (ids s).Nodup) (h : selectDue now s = some j) :
    eligCount now (acquire_due_job now s).2 + 1 = eligCount now s := by
  obtain ⟨hj, he⟩ := selectDue_mem h
  rw [acquire_eq_of_selectDue_some h]
  unfold eligCount
  rw [← List.countP_eq_length_filter, ← List.countP_eq_length_filter]
  exact countP_acquireMap now j s hnd hj he

theorem eligCount_eq_zero_iff (now : Int) (s : Store) :
    eligCount now s = 0 ↔ ∀ k ∈ s, eligible now k = false := by
  unfold eligCount
  rw [List.length_eq_zero]
  constructor
  · intro h k hk
    by_contra hne
    have hmem : k ∈ s.filter (eligible now) :=
      List.mem_filter.mpr ⟨hk, by revert hne; cases eligible now k <;> simp⟩
    rw [h] at hmem
    cases hmem
  · intro h
    apply List.filter_eq_nil_iff.mpr
    intro k hk
    simp [h k hk]

end QueueCtl

namespace QueueCtl

/-- C1: every job returned by the due-job acquisition at time `now` (given
the scheduling invariant that PENDING/FAILED rows carry a non-null
`next_run_at`) was a PENDING or FAILED row — never one already PROCESSING —
with `next_run_at <= now`, oldest by `created_at` among eligible rows, and is
atomically marked PROCESSING with `updated_at = now`; when no row is
eligible the call returns the no-job signal `none` (not an error) and leaves
the table unchanged. -/
theorem acquire_spec (now : Int) (s : Store) (hs : schedInvariant s) :
    acquireClaim now s := by
  unfold acquireClaim
  refine ⟨?_, ?_, ?_⟩
  · intro j' hj'
    cases h : selectDue now s with
    | none =>
      rw [acquire_eq_of_selectDue_none h] at hj'
      cases hj'
    | some j =>
      rw [acquire_eq_of_selectDue_some h] at hj'
      obtain ⟨hjmem, hjel⟩ := selectDue_mem h
      obtain rfl := (Option.some.inj hj').symm
      cases hnr : j.next_run_at with
      | none =>
        exact absurd hnr (hs j hjmem (eligible_state hjel))
      | some t =>
        refine ⟨j, hjmem, t, eligible_state hjel, eligible_not_processing hjel,
          hnr, eligible_time hjel hnr, selectDue_min h, rfl, rfl, rfl, ?_⟩
        rw [acquire_eq_of_selectDue_some h]
  · constructor
    · intro hn
      cases h : selectDue now s with
      | none => exact selectDue_eq_none.mp h
      | some j =>
        rw [acquire_eq_of_selectDue_some h] at hn
        cases hn
    · intro hall
      rw [acquire_eq_of_selectDue_none (selectDue_eq_none.mpr hall)]
  · intro hn
    cases h : selectDue now s with
    | none => rw [acquire_eq_of_selectDue_none h]
    | some j =>
      rw [acquire_eq_of_selectDue_some h] at hn
      cases hn

/-- Witness for C1: the claim discharged on a concrete three-row table. -/
theorem acquire_spec_witness : schedInvariant wStore ∧ acquireClaim 5 wStore :=
  ⟨by decide, acquire_spec 5 wStore (by decide)⟩

end QueueCtl

namespace QueueCtl

theorem acquireMany_zero (now : Int) (s : Store) : acquireMany now 0 s = ([], s) := rfl

theorem acquireMany_succ (now : Int) (n : Nat) (s : Store) :
    acquireMany now (n + 1) s =
      match acquire_due_job now s with
      | (none, s1) => acquireMany now n s1
      | (some j, s1) => (j :: (acquireMany now n s1).1, (acquireMany now n s1).2) := rfl

theorem acquireMany_succ_none {now : Int} {s : Store} (n : Nat)
    (h : selectDue now s = none) :
    acquireMany now (n + 1) s = acquireMany now n s := by
  rw [acquireMany_succ, acquire_eq_of_selectDue_none h]

theorem acquireMany_succ_some {now : Int} {s : Store} {j : Job} (n : Nat)
    (h : selectDue now s = some j) :
    (acquireMany now (n + 1) s).1 =
      markProcessing now j :: (acquireMany now n (acquire_due_job now s).2).1 ∧
    (acquireMany now (n + 1) s).2 =
      (acquireMany now n (acquire_due_job now s).2).2 := by
  rw [acquireMany_succ, acquire_eq_of_selectDue_some h]
  exact ⟨rfl, rfl⟩

theorem acquireMany_ids_avoid (now : Int) :
    ∀ (n : Nat) (s : Store), (ids s).Nodup →
      ∀ r ∈ s, r.state = JobState.processing →
      ∀ j' ∈ (acquireMany now n s).1, j'.id ≠ r.id := by
  intro n
  induction n with
  | zero =>
    intro s _ r _ _ j' hj'
    cases hj'
  | succ n ih =>
    intro s hnd r hr hproc j' hj'
    cases h : selectDue now s with
    | none =>
      rw [acquireMany_succ_none n h] at hj'
      exact ih s hnd r hr hproc j' hj'
    | some j =>
      obtain ⟨h1, _⟩ := acquireMany_succ_some n h
      rw [h1] at hj'
      rcases List.mem_cons.mp hj' with rfl | hj'
      · obtain ⟨hjmem, hjel⟩ := selectDue_mem h
        intro hid
        have hjr : j = r := List.inj_on_of_nodup_map (ids_eq s ▸ hnd) hjmem hr hid
        exact eligible_not_processing hjel (hjr ▸ hproc)
      · have hnd1 : (ids (acquire_due_job now s).2).Nodup := by
          rw [ids_acquire]; exact hnd
        have hr1 : r ∈ (acquire_due_job now s).2 :=
          processing_mem_acquire now s hnd r hr hproc
        exact ih _ hnd1 r hr1 hproc j' hj'

theorem acquireMany_main (now : Int) :
    ∀ (N : Nat) (s : Store), (ids s).Nodup → eligCount now s ≤ N →
      acquireManyClaim now N s := by
  intro N
  induction N with
  | zero =>
    intro s hnd hle
    have h0 : eligCount now s = 0 := Nat.le_zero.mp hle
    unfold acquireManyClaim
    rw [acquireMany_zero, h0]
    exact ⟨rfl, List.nodup_nil, fun j' hj' => absurd hj' (List.not_mem_nil j')⟩
  | succ n ih =>
    intro s hnd hle
    cases h : selectDue now s with
    | none =>
      have h0 : eligCount now s = 0 :=
        (eligCount_eq_zero_iff now s).mpr (selectDue_eq_none.mp h)
      have hc := ih s hnd (h0 ▸ Nat.zero_le n)
      unfold acquireManyClaim at hc ⊢
      rw [acquireMany_succ_none n h]
      exact hc
    | some j =>
      obtain ⟨hjmem, hjel⟩ := selectDue_mem h
      obtain ⟨h1, h2⟩ := acquireMany_succ_some n h
      have hnd1 : (ids (acquire_due_job now s).2).Nodup := by
        rw [ids_acquire]; exact hnd
      have hcnt : eligCount now (acquire_due_job now s).2 + 1 = eligCount now s :=
        eligCount_acquire_some now s j hnd h
      have hle1 : eligCount now (acquire_due_job now s).2 ≤ n := by omega
      obtain ⟨hlen, hnodup, hmemb⟩ := ih _ hnd1 hle1
      unfold acquireManyClaim
      refine ⟨?_, ?_, ?_⟩
      · rw [h1, List.length_cons]
        omega
      · rw [h1, List.map_cons, List.nodup_cons]
        refine ⟨?_, hnodup⟩
        intro hmem
        rcases List.mem_map.mp hmem with ⟨x, hx, hxid⟩
        have hmj : markProcessing now j ∈ (acquire_due_job now s).2 := by
          rw [acquire_eq_of_selectDue_some h]
          have hfix : (fun k => if k.id = j.id then markProcessing now k else k) j =
              markProcessing now j := if_pos rfl
          rw [← hfix]
          exact List.mem_map_of_mem _ hjmem
        exact acquireMany_ids_avoid now n _ hnd1 (markProcessing now j) hmj rfl x hx hxid
      · intro j' hj'
        rw [h1] at hj'
        rcases List.mem_cons.mp hj' with rfl | hj'
        · exact ⟨j, hjmem, hjel, rfl, rfl⟩
        · obtain ⟨k, hk1, hk2, hk3, hk4⟩ := hmemb j' hj'
          exact ⟨k, mem_of_eligible_mem_acquire now s k hk1 hk2, hk2, hk3, hk4⟩

/-- C2: modelling each `acquire_due_job` call as the atomic serializing
transaction the `BEGIN IMMEDIATE` block makes it (so a concurrent execution
of `N` callers is equivalent to some serial order of `N` atomic calls),
`N` calls against a backlog of `M <= N` eligible rows return exactly `M`
jobs in total, with pairwise-distinct ids, each an eligible row of the
starting table returned to exactly one caller; a claimed row is PROCESSING
and is never handed out again within the run. -/
theorem acquire_concurrent_spec (now : Int) (N : Nat) (s : Store)
    (hnd : (ids s).Nodup) (hMN : eligCount now s ≤ N) :
    acquireManyClaim now N s :=
  acquireMany_main now N s hnd hMN

/-- Witness for C2: three callers drain a backlog of two eligible rows. -/
theorem acquire_concurrent_spec_witness :
    (ids wStore).Nodup ∧ eligCount 5 wStore ≤ 3 ∧ acquireManyClaim 5 3 wStore :=
  ⟨by decide, by decide, acquire_concurrent_spec 5 3 wStore (by decide) (by decide)⟩

end QueueCtl

namespace QueueCtl

/-- C6: `dlq_retry` raises "not found" for an unknown id and "not in DLQ"
for a job that is not DEAD, mutating nothing in either case; on a DEAD job
it writes back PENDING with `attempts = 0`, `last_error` cleared and
`next_run_at = updated_at = now`, all other fields kept. -/
theorem dlq_retry_spec (now : Int) (job_id : String) (s : Store) :
    dlqRequeueClaim now job_id s := by
  unfold dlqRequeueClaim
  refine ⟨?_, ?_, ?_⟩
  · intro h
    unfold dlq_retry
    rw [h]
    exact ⟨rfl, rfl⟩
  · intro j hj hnd
    unfold dlq_retry
    rw [hj]
    dsimp only
    rw [if_pos hnd]
    exact ⟨rfl, rfl⟩
  · intro j hj hdead
    unfold dlq_retry
    rw [hj]
    dsimp only
    rw [if_neg (by simp [hdead])]
    exact ⟨_, rfl, rfl, rfl, rfl, rfl, rfl, rfl, rfl, rfl, rfl, rfl⟩

/-- Witness for C6: requeueing the concrete dead row `wDead`. -/
theorem dlq_retry_spec_witness : dlqRequeueClaim 10 "d" [wDead] :=
  dlq_retry_spec 10 "d" [wDead]

/-- C7: a valid submission (non-empty command, at most one scheduling field)
creates a PENDING job with `attempts = 0` and `next_run_at` equal to the
supplied `run_at`, to `now + delay`, or to `now` when neither is given. -/
theorem submit_valid_spec (cfg : Config) (genId : String) (now : Int)
    (p : JobPayload) (s : Store) (c : String) (hc : p.command = some c)
    (hne : c ≠ "") (hx : ¬(p.run_at.isSome ∧ p.delay.isSome)) :
    submitClaim cfg genId now p s := by
  unfold submitClaim
  unfold enqueue_job_from_json
  rw [hc]
  dsimp only
  rw [if_neg hne]
  refine ⟨_, rfl, rfl, rfl, rfl, ?_, ?_, ?_⟩
  · intro h1 h2
    rw [h1, h2]
  · intro t ht
    rw [ht]
  · intro d h1 h2
    rw [h1, h2]

/-- Witness for C7: submitting a plain `echo` payload with no scheduling
field. -/
theorem submit_valid_spec_witness :
    wPayloadPlain.command = some "echo" ∧ "echo" ≠ "" ∧
      ¬(wPayloadPlain.run_at.isSome ∧ wPayloadPlain.delay.isSome) ∧
      submitClaim cfgW "gen" 5 wPayloadPlain wStore :=
  ⟨rfl, by decide, by decide,
    submit_valid_spec cfgW "gen" 5 wPayloadPlain wStore "echo" rfl (by decide) (by decide)⟩

/-- C10: completing a job rewrites only `state`, `updated_at`,
`next_run_at`, `last_error` and `output_log_path`; `id`, `command`,
`attempts`, `max_retries` and `created_at` are carried over unchanged (so a
COMPLETED job's `attempts` still counts its earlier failures), and rows with
a different id are untouched. -/
theorem complete_frame_spec (now : Int) (path : Option String) (j : Job)
    (s : Store) : completeFrameClaim now path j s := by
  unfold completeFrameClaim
  refine ⟨rfl, rfl, rfl, rfl, rfl, rfl, rfl, rfl, rfl, rfl, rfl, ?_⟩
  intro k hk hne
  have hfix : (fun x => if x.id = (complete_job now path j s).1.id
      then (complete_job now path j s).1 else x) k = k := if_neg hne
  exact hfix ▸ List.mem_map_of_mem _ hk

/-- Witness for C10: completing the claimed row `wJobProc`. -/
theorem complete_frame_spec_witness : completeFrameClaim 9 (some "log") wJobProc wStore :=
  complete_frame_spec 9 (some "log") wJobProc wStore

end QueueCtl

namespace QueueCtl

/-- C3 counterexample: `fail_job` takes its two clock reads from separate
`utc_now()` calls (engine.py lines 213 and 223); when the clock advances
from 0 to 1 between them, the first failure of `wProcJob`
(`max_retries = 3`, `backoff_base = 2`) yields `updated_at = 0` but
`next_run_at = some 3 = 1 + 2^1`, not `updated_at + 2^1 = 2` — so
"next_run_at equals updated_at plus backoff_base^K seconds exactly" fails. -/
theorem fail_backoff_cex :
    (fail_job cfgW 0 1 "boom" wProcJob [wProcJob]).1.updated_at = 0 ∧
    (fail_job cfgW 0 1 "boom" wProcJob [wProcJob]).1.state = JobState.failed ∧
    (fail_job cfgW 0 1 "boom" wProcJob [wProcJob]).1.attempts = 1 ∧
    (fail_job cfgW 0 1 "boom" wProcJob [wProcJob]).1.next_run_at = some 3 ∧
    (fail_job cfgW 0 1 "boom" wProcJob [wProcJob]).1.next_run_at ≠
      some ((fail_job cfgW 0 1 "boom" wProcJob [wProcJob]).1.updated_at +
        cfgW.backoff_base ^ 1) := by
  decide

/-- C3 (amended): the Kth failure (K = attempts + 1) records the error and
`updated_at`; if `K < max_retries` the job is FAILED with
`next_run_at = t_back + backoff_base ^ K` where `t_back` is the second clock
read — equal to `updated_at + backoff_base ^ K` exactly when the two reads
coincide — and if `K >= max_retries` it is DEAD with null `next_run_at`. -/
theorem fail_job_snd (cfg : Config) (t1 t2 : Int) (msg : String) (j : Job)
    (s : Store) :
    (fail_job cfg t1 t2 msg j s).2 = update_job (fail_job cfg t1 t2 msg j s).1 s := rfl

theorem fail_job_attempts (cfg : Config) (t1 t2 : Int) (msg : String) (j : Job)
    (s : Store) : (fail_job cfg t1 t2 msg j s).1.attempts = j.attempts + 1 := by
  simp only [fail_job]
  split <;> rfl

theorem fail_job_updated (cfg : Config) (t1 t2 : Int) (msg : String) (j : Job)
    (s : Store) : (fail_job cfg t1 t2 msg j s).1.updated_at = t1 := by
  simp only [fail_job]
  split <;> rfl

theorem fail_job_last_error (cfg : Config) (t1 t2 : Int) (msg : String) (j : Job)
    (s : Store) : (fail_job cfg t1 t2 msg j s).1.last_error = some msg := by
  simp only [fail_job]
  split <;> rfl

theorem fail_job_dead_state (cfg : Config) (t1 t2 : Int) (msg : String) (j : Job)
    (s : Store) (h : ((j.attempts + 1 : Nat) : Int) ≥ j.max_retries) :
    (fail_job cfg t1 t2 msg j s).1.state = JobState.dead := by
  simp only [fail_job, if_pos h]

theorem fail_job_dead_next (cfg : Config) (t1 t2 : Int) (msg : String) (j : Job)
    (s : Store) (h : ((j.attempts + 1 : Nat) : Int) ≥ j.max_retries) :
    (fail_job cfg t1 t2 msg j s).1.next_run_at = none := by
  simp only [fail_job, if_pos h]

theorem fail_job_failed_state (cfg : Config) (t1 t2 : Int) (msg : String) (j : Job)
    (s : Store) (h : ¬((j.attempts + 1 : Nat) : Int) ≥ j.max_retries) :
    (fail_job cfg t1 t2 msg j s).1.state = JobState.failed := by
  simp only [fail_job, if_neg h]

theorem fail_job_failed_next (cfg : Config) (t1 t2 : Int) (msg : String) (j : Job)
    (s : Store) (h : ¬((j.attempts + 1 : Nat) : Int) ≥ j.max_retries) :
    (fail_job cfg t1 t2 msg j s).1.next_run_at =
      some (t2 + compute_backoff cfg.backoff_base (j.attempts + 1)) := by
  simp only [fail_job, if_neg h]

theorem compute_backoff_pos (base : Int) (a : Nat) (h : a ≠ 0) :
    compute_backoff base a = base ^ a := by
  unfold compute_backoff
  rw [if_neg (by omega)]

theorem fail_backoff_spec (cfg : Config) (t_upd t_back : Int) (msg : String)
    (j : Job) (s : Store) : failBackoffClaim cfg t_upd t_back msg j s := by
  unfold failBackoffClaim
  refine ⟨fail_job_attempts cfg t_upd t_back msg j s,
    fail_job_updated cfg t_upd t_back msg j s,
    fail_job_last_error cfg t_upd t_back msg j s,
    fail_job_snd cfg t_upd t_back msg j s, ?_, ?_⟩
  · intro hlt
    have hnge : ¬((j.attempts + 1 : Nat) : Int) ≥ j.max_retries := by omega
    refine ⟨fail_job_failed_state cfg t_upd t_back msg j s hnge, ?_, ?_⟩
    · rw [fail_job_failed_next cfg t_upd t_back msg j s hnge,
        compute_backoff_pos cfg.backoff_base (j.attempts + 1) (by omega)]
    · intro heq
      subst heq
      rw [fail_job_failed_next cfg t_upd t_upd msg j s hnge,
        compute_backoff_pos cfg.backoff_base (j.attempts + 1) (by omega),
        fail_job_updated cfg t_upd t_upd msg j s]
  · intro hge2
    have hge : ((j.attempts + 1 : Nat) : Int) ≥ j.max_retries := by omega
    exact ⟨fail_job_dead_state cfg t_upd t_back msg j s hge,
      fail_job_dead_next cfg t_upd t_back msg j s hge⟩

/-- Witness for C3 (amended): failing `wProcJob` with both clock reads at 7. -/
theorem fail_backoff_spec_witness : failBackoffClaim cfgW 7 7 "err" wProcJob [wProcJob] :=
  fail_backoff_spec cfgW 7 7 "err" wProcJob [wProcJob]

/-- C5 counterexample: a JSON payload carrying both `run_at = 100` and
`delay = 5` is accepted by `enqueue_job_from_json` — no validation error is
raised, a row is inserted, and `run_at` silently wins — refuting "always
fails validation without creating a row". -/
theorem submit_both_cex :
    (enqueue_job_from_json cfgW "gen" 0 wPayloadBoth []).1 =
      Except.ok
        { id := "gen", command := "echo", state := JobState.pending,
          attempts := 0, max_retries := 3, created_at := 0, updated_at := 0,
          next_run_at := some 100, last_error := none, output_log_path := none } ∧
    (enqueue_job_from_json cfgW "gen" 0 wPayloadBoth []).2 =
      [{ id := "gen", command := "echo", state := JobState.pending,
         attempts := 0, max_retries := 3, created_at := 0, updated_at := 0,
         next_run_at := some 100, last_error := none, output_log_path := none }] := by
  exact ⟨rfl, rfl⟩

/-- C5 (amended): only the flag-based CLI path rejects `--run-at` together
with `--delay` (before reaching the engine, leaving the table untouched); a
JSON payload carrying both fields is not rejected — the engine prefers
`run_at` and creates the PENDING row. -/
theorem submit_both_spec (cfg : Config) (genId : String) (now : Int)
    (c : String) (t d : Int) (p : JobPayload) (args : EnqueueArgs)
    (s : Store) (hcne : c ≠ "")
    (hp1 : p.command = some c) (hp2 : p.run_at = some t) (hp3 : p.delay = some d)
    (ha1 : args.job_json = none) (ha2 : args.job_command = some c)
    (ha3 : args.run_at = some t) (ha4 : args.delay = some d) :
    bothScheduleClaim cfg genId now t p args s := by
  unfold bothScheduleClaim
  constructor
  · unfold cli_enqueue
    rw [ha1]
    dsimp only
    rw [ha2]
    dsimp only
    rw [if_neg hcne]
    rw [ha3, ha4]
    simp only [Option.isSome_some, Bool.and_self, if_pos]
    constructor <;> trivial
  · unfold enqueue_job_from_json
    rw [hp1]
    dsimp only
    rw [if_neg hcne]
    rw [hp2]
    exact ⟨_, rfl, rfl, rfl, rfl⟩

/-- Witness for C5 (amended): the concrete both-fields payload and flag set. -/
theorem submit_both_spec_witness :
    wPayloadBoth.command = some "echo" ∧ wArgsBoth.run_at = some 100 ∧
      wArgsBoth.delay = some 5 ∧
      bothScheduleClaim cfgW "gen" 0 100 wPayloadBoth wArgsBoth [] :=
  ⟨rfl, rfl, rfl,
    submit_both_spec cfgW "gen" 0 "echo" 100 5 wPayloadBoth wArgsBoth []
      (by decide) rfl rfl rfl rfl rfl rfl rfl⟩

end QueueCtl

namespace QueueCtl

theorem filter_state_partition (l : List Job) :
    (l.filter (fun j => j.state == JobState.pending)).length +
      (l.filter (fun j => j.state == JobState.processing)).length +
      (l.filter (fun j => j.state == JobState.completed)).length +
      (l.filter (fun j => j.state == JobState.failed)).length +
      (l.filter (fun j => j.state == JobState.dead)).length = l.length := by
  induction l with
  | nil => rfl
  | cons a t ih =>
    cases h : a.state <;> simp [List.filter_cons, h] <;> omega

/-- C9: the per-state counts reported by `metrics` sum to `total_jobs`, and
`success_rate` equals the completed count divided by the total, with 0 for
an empty table. -/
theorem metrics_consistent_spec (s : Store) : metricsClaim s := by
  unfold metricsClaim metrics
  dsimp only
  refine ⟨filter_state_partition (list_jobs s), ?_, ?_⟩
  · intro h
    rw [if_pos h]
  · intro h
    rw [if_neg h]

/-- Witness for C9: metrics over a concrete two-row table. -/
theorem metrics_consistent_spec_witness : metricsClaim [wJob1, wDead] :=
  metrics_consistent_spec [wJob1, wDead]

theorem schedInvariant_update (j2 : Job) (s : Store) (hs : schedInvariant s)
    (hj2 : (j2.state = JobState.pending ∨ j2.state = JobState.failed) →
      j2.next_run_at ≠ none) :
    schedInvariant (update_job j2 s) := by
  intro k hk hstate
  unfold update_job at hk
  rcases List.mem_map.mp hk with ⟨x, hx, hfx⟩
  by_cases hid : x.id = j2.id
  · rw [if_pos hid] at hfx
    obtain rfl := hfx
    exact hj2 hstate
  · rw [if_neg hid] at hfx
    obtain rfl := hfx
    exact hs x hx hstate

theorem enqueue_store_cases (cfg : Config) (genId : String) (now : Int)
    (p : JobPayload) (s : Store) :
    (enqueue_job_from_json cfg genId now p s).2 = s ∨
      ∃ job, (enqueue_job_from_json cfg genId now p s).2 = s ++ [job] ∧
        job.next_run_at ≠ none := by
  unfold enqueue_job_from_json
  cases hc : p.command with
  | none => exact Or.inl rfl
  | some c =>
    dsimp only
    by_cases hce : c = ""
    · rw [if_pos hce]
      exact Or.inl rfl
    · rw [if_neg hce]
      exact Or.inr ⟨_, rfl, by simp⟩

theorem fail_job_sched (cfg : Config) (t1 t2 : Int) (msg : String) (j : Job)
    (s : Store) :
    ((fail_job cfg t1 t2 msg j s).1.state = JobState.pending ∨
      (fail_job cfg t1 t2 msg j s).1.state = JobState.failed) →
    (fail_job cfg t1 t2 msg j s).1.next_run_at ≠ none := by
  intro hstate
  by_cases hge : ((j.attempts + 1 : Nat) : Int) ≥ j.max_retries
  · rw [fail_job_dead_state cfg t1 t2 msg j s hge] at hstate
    rcases hstate with h | h <;> cases h
  · rw [fail_job_failed_next cfg t1 t2 msg j s hge]
    simp

/-- C4 counterexample: the one-row table holding the pending job `wJob1`
satisfies the claimed iff-invariant, but after acquisition at time 5 the row
is PROCESSING while still carrying `next_run_at = some 3` (the acquisition
`UPDATE` sets only `state` and `updated_at`), so the iff fails. -/
theorem sched_invariant_cex :
    schedIffInvariant [wJob1] ∧
      ¬ schedIffInvariant (acquire_due_job 5 [wJob1]).2 := by
  decide

/-- C4 (amended): starting from a table where every PENDING/FAILED row has a
non-null `next_run_at`, each engine operation preserves that direction, and
completion and retry exhaustion write null `next_run_at`; acquisition,
however, leaves the claimed row's old non-null `next_run_at` on the
PROCESSING row instead of nulling it. -/
theorem sched_invariant_spec (cfg : Config) (genId : String) (now t2 : Int)
    (p : JobPayload) (path : Option String) (msg : String) (job_id : String)
    (j : Job) (s : Store) (hs : schedInvariant s) :
    schedClaim cfg genId now t2 p path msg job_id j s := by
  unfold schedClaim
  refine ⟨?_, ?_, ?_, ?_, ?_, rfl, ?_, ?_⟩
  · rcases enqueue_store_cases cfg genId now p s with h | ⟨job, heq, hnn⟩
    · rw [h]
      exact hs
    · rw [heq]
      intro k hk hstate
      rcases List.mem_append.mp hk with hk | hk
      · exact hs k hk hstate
      · obtain rfl := List.mem_singleton.mp hk
        exact hnn
  · intro k hk hstate
    cases h : selectDue now s with
    | none =>
      rw [acquire_eq_of_selectDue_none h] at hk
      exact hs k hk hstate
    | some jj =>
      rw [acquire_eq_of_selectDue_some h] at hk
      rcases List.mem_map.mp hk with ⟨x, hx, hfx⟩
      by_cases hid : x.id = jj.id
      · rw [if_pos hid] at hfx
        obtain rfl := hfx
        rcases hstate with h1 | h1 <;> cases h1
      · rw [if_neg hid] at hfx
        obtain rfl := hfx
        exact hs x hx hstate
  · exact schedInvariant_update _ s hs
      (by intro hstate; rcases hstate with h | h <;> simp [complete_job] at h)
  · rw [fail_job_snd cfg now t2 msg j s]
    exact schedInvariant_update _ s hs (fail_job_sched cfg now t2 msg j s)
  · unfold dlq_retry
    cases hg : get_job job_id s with
    | none =>
      exact hs
    | some jj =>
      dsimp only
      by_cases hd : jj.state ≠ JobState.dead
      · rw [if_pos hd]
        exact hs
      · rw [if_neg hd]
        exact schedInvariant_update _ s hs (by intro _; simp)
  · intro h
    have hge : ((j.attempts + 1 : Nat) : Int) ≥ j.max_retries := by omega
    exact ⟨fail_job_dead_next cfg now t2 msg j s hge,
      fail_job_dead_state cfg now t2 msg j s hge⟩
  · intro jj hsel
    rw [acquire_eq_of_selectDue_some hsel]
    exact ⟨rfl, rfl⟩

/-- Witness for C4 (amended): the invariant carried across each operation on
the concrete table `wStore`. -/
theorem sched_invariant_spec_witness :
    schedInvariant wStore ∧
      schedClaim cfgW "gen" 5 6 wPayloadPlain none "err" "d" wJob1 wStore :=
  ⟨by decide,
    sched_invariant_spec cfgW "gen" 5 6 wPayloadPlain none "err" "d" wJob1 wStore
      (by decide)⟩

end QueueCtl

namespace QueueCtl

theorem forall₂_attempts_map (s : Store) (f : Job → Job)
    (h : ∀ a ∈ s, a.attempts ≤ (f a).attempts) :
    List.Forall₂ (fun a b => a.attempts ≤ b.attempts) s (s.map f) := by
  rw [List.forall₂_map_right_iff]
  exact List.forall₂_same.mpr h

/-- C8 counterexample: requeueing the dead row `wDead` (`attempts = 2`)
resets its stored `attempts` to 0 — the operation makes `attempts` smaller,
refuting "monotonically non-decreasing across every engine operation". -/
theorem attempts_monotone_cex :
    (dlq_retry 10 "d" [wDead]).2.map Job.attempts = [0] ∧
      [wDead].map Job.attempts = [2] ∧ ¬ (2 : Nat) ≤ 0 := by
  decide

/-- C8 (amended): `attempts` starts at 0 at submission, and acquisition,
completion and failure never decrease any row's `attempts` (failure
increments the failed row's); `dlq_retry`, however, resets the requeued
job's `attempts` to 0, which can decrease it. -/
theorem attempts_monotone_spec (cfg : Config) (genId : String) (now t2 : Int)
    (msg : String) (path : Option String) (job_id : String) (p : JobPayload)
    (j : Job) (s : Store) (hnd : (ids s).Nodup) (hj : j ∈ s) :
    attemptsClaim cfg genId now t2 msg path job_id p j s := by
  unfold attemptsClaim
  refine ⟨?_, ?_, ?_, ?_, ?_⟩
  · intro jb hjb
    unfold enqueue_job_from_json at hjb
    cases hc : p.command with
    | none =>
      rw [hc] at hjb
      cases hjb
    | some c =>
      rw [hc] at hjb
      dsimp only at hjb
      by_cases hce : c = ""
      · rw [if_pos hce] at hjb
        cases hjb
      · rw [if_neg hce] at hjb
        obtain rfl := Except.ok.inj hjb
        rfl
  · cases h : selectDue now s with
    | none =>
      rw [acquire_eq_of_selectDue_none h]
      exact List.forall₂_same.mpr fun a _ => le_refl _
    | some jj =>
      rw [acquire_eq_of_selectDue_some h]
      apply forall₂_attempts_map
      intro a _
      by_cases hid : a.id = jj.id
      · rw [if_pos hid]
        exact le_refl _
      · rw [if_neg hid]
  · have h2 : (complete_job now path j s).2 =
        update_job (complete_job now path j s).1 s := rfl
    rw [h2]
    unfold update_job
    apply forall₂_attempts_map
    intro a ha
    by_cases hid : a.id = (complete_job now path j s).1.id
    · rw [if_pos hid]
      have haj : a = j :=
        List.inj_on_of_nodup_map (ids_eq s ▸ hnd) ha hj (show a.id = j.id from hid)
      rw [haj]
      exact le_refl _
    · rw [if_neg hid]
  · rw [fail_job_snd cfg now t2 msg j s]
    unfold update_job
    apply forall₂_attempts_map
    intro a ha
    by_cases hid : a.id = (fail_job cfg now t2 msg j s).1.id
    · rw [if_pos hid]
      have hfid : (fail_job cfg now t2 msg j s).1.id = j.id := by
        simp only [fail_job]
        split <;> rfl
      have haj : a = j :=
        List.inj_on_of_nodup_map (ids_eq s ▸ hnd) ha hj (hid.trans hfid)
      rw [haj, fail_job_attempts]
      omega
    · rw [if_neg hid]
  · intro j2 hj2
    unfold dlq_retry at hj2
    cases hg : get_job job_id s with
    | none =>
      rw [hg] at hj2
      cases hj2
    | some jj =>
      rw [hg] at hj2
      dsimp only at hj2
      by_cases hd : jj.state ≠ JobState.dead
      · rw [if_pos hd] at hj2
        cases hj2
      · rw [if_neg hd] at hj2
        obtain rfl := Except.ok.inj hj2
        rfl

/-- Witness for C8 (amended): the claim discharged on `wStore` with the row
`wJob1`. -/
theorem attempts_monotone_spec_witness :
    (ids wStore).Nodup ∧ wJob1 ∈ wStore ∧
      attemptsClaim cfgW "gen" 5 6 "err" none "d" wPayloadPlain wJob1 wStore :=
  ⟨by decide, by decide,
    attempts_monotone_spec cfgW "gen" 5 6 "err" none "d" wPayloadPlain wJob1 wStore
      (by decide) (by decide)⟩

end QueueCtl
